import Mathlib

/-!
Verification of the command admission gate, rate limiter, static Python
validator and output-streaming pipeline of the `module_spelunker` repository
(`backend/security.py`, `backend/terminal_manager.py`, `backend/server.py`,
`bug-detector/pyguard_hook.py`).

Strings are modelled as Lean `String` / `List Char`.  Python's `re` patterns
used by the source are each translated into an explicit decidable matcher on
character lists; `re.IGNORECASE` is modelled by ASCII lowercasing, and the
whitespace class by the ASCII whitespace characters, matching the ASCII
command/source texts the system processes.
-/

/-- ASCII whitespace, the model of Python's whitespace class (`\s`,
`str.strip`, `str.split`): space, tab, newline, carriage return, vertical
tab, form feed. -/
def pyWsB (c : Char) : Bool :=
  c == ' ' || c == '\t' || c == '\n' || c == '\r' ||
  c == Char.ofNat 11 || c == Char.ofNat 12

/-- Word characters, the model of the regex class `\w` over ASCII. -/
def isWordChar (c : Char) : Bool :=
  ('a' ≤ c && c ≤ 'z') || ('A' ≤ c && c ≤ 'Z') || ('0' ≤ c && c ≤ '9') || c == '_'

/-- ASCII decimal digits, the model of the regex class `\d`. -/
def isDigitB (c : Char) : Bool :=
  '0' ≤ c && c ≤ '9'

/-- ASCII lowercasing of one character, the model of Python `str.lower`
and of `re.IGNORECASE` normalisation on the ASCII range. -/
def lowerChar (c : Char) : Char :=
  if 65 ≤ c.toNat ∧ c.toNat ≤ 90 then Char.ofNat (c.toNat + 32) else c

/-- ASCII lowercasing of a character list. -/
def lowerList (cs : List Char) : List Char :=
  cs.map lowerChar

/-- `startsWithL pat cs` holds when `pat` is an initial segment of `cs`. -/
def startsWithL : List Char → List Char → Bool
  | [], _ => true
  | _ :: _, [] => false
  | p :: ps, c :: cs => p == c && startsWithL ps cs

/-- `hasSubstr pat cs`: `pat` occurs contiguously somewhere in `cs`; the
model of `re.search` for a literal pattern and of Python's `in` on strings. -/
def hasSubstr (pat : List Char) : List Char → Bool
  | [] => pat.isEmpty
  | c :: cs => startsWithL pat (c :: cs) || hasSubstr pat cs

/-- `startsThenWs pat cs`: `cs` begins with `pat` followed immediately by one
whitespace character — the anchored model of regex `pat\s`. -/
def startsThenWs : List Char → List Char → Bool
  | [], c :: _ => pyWsB c
  | [], [] => false
  | p :: ps, c :: cs => p == c && startsThenWs ps cs
  | _ :: _, [] => false

/-- `hasSubThenWs pat cs`: regex `pat\s` matches somewhere inside `cs`. -/
def hasSubThenWs (pat : List Char) : List Char → Bool
  | [] => false
  | c :: cs => startsThenWs pat (c :: cs) || hasSubThenWs pat cs

/-- Python `str.strip`: drop leading and trailing whitespace. -/
def pyStrip (cs : List Char) : List Char :=
  ((cs.dropWhile pyWsB).reverse.dropWhile pyWsB).reverse

/-- Python `str.rstrip`: drop trailing whitespace. -/
def pyRstrip (cs : List Char) : List Char :=
  (cs.reverse.dropWhile pyWsB).reverse

/-- First whitespace-delimited token: the model of
`command.strip().split()[0]` (defined when the stripped text is nonempty). -/
def firstTok (cs : List Char) : List Char :=
  (pyStrip cs).takeWhile (fun c => !pyWsB c)

/-- Python `code.split(chr(10))`: split a character list at newline
characters; always returns at least one (possibly empty) piece. -/
def splitNl : List Char → List (List Char)
  | [] => [[]]
  | c :: rest =>
    match splitNl rest with
    | [] => [[]]
    | s :: ss => if c = '\n' then [] :: s :: ss else (c :: s) :: ss

/-! ## Command admission gate (`backend/security.py`, `SecurityManager`) -/

/-- `SecurityManager.ALLOWED_COMMANDS`. -/
def ALLOWED_COMMANDS : List (List Char) :=
  ["pyguard", "python3", "clear", "ls", "cat", "pwd", "echo", "help"].map
    String.toList

/-- Blocked pattern `rm\s` on the lowercased text. -/
def rmWsHit (l : List Char) : Bool := hasSubThenWs ['r', 'm'] l

/-- Blocked pattern `sudo` on the lowercased text. -/
def sudoHit (l : List Char) : Bool := hasSubstr "sudo".toList l

/-- Blocked pattern `curl` on the lowercased text. -/
def curlHit (l : List Char) : Bool := hasSubstr "curl".toList l

/-- Blocked pattern `wget` on the lowercased text. -/
def wgetHit (l : List Char) : Bool := hasSubstr "wget".toList l

/-- Blocked pattern `pip\s` on the lowercased text. -/
def pipWsHit (l : List Char) : Bool := hasSubThenWs ['p', 'i', 'p'] l

/-- One candidate position of the blocked pattern `python3?\s(?!.*pyguard)`:
the suffix `cs` starts with `python`, then either `3` and a whitespace
character or a whitespace character directly, and the remainder after that
whitespace does not contain `pyguard` (the negative lookahead). -/
def pythonAtHit (cs : List Char) : Bool :=
  startsWithL "python".toList cs &&
    (let rest := cs.drop 6
     (match rest with
      | '3' :: c :: r2 => pyWsB c && !hasSubstr "pyguard".toList r2
      | _ => false)
     ||
     (match rest with
      | c :: r1 => pyWsB c && !hasSubstr "pyguard".toList r1
      | [] => false))

/-- Blocked pattern `python3?\s(?!.*pyguard)` searched at every position of
the lowercased text. -/
def pythonHit : List Char → Bool
  | [] => false
  | c :: cs => pythonAtHit (c :: cs) || pythonHit cs

/-- Blocked pattern `&&`. -/
def andAndHit (l : List Char) : Bool := hasSubstr ['&', '&'] l

/-- Blocked pattern `\|\|`. -/
def orOrHit (l : List Char) : Bool := hasSubstr ['|', '|'] l

/-- Blocked pattern `\|`. -/
def pipeHit (l : List Char) : Bool := hasSubstr ['|'] l

/-- Blocked pattern `;`. -/
def semiHit (l : List Char) : Bool := hasSubstr [';'] l

/-- Blocked pattern `\$\(`. -/
def dollarParenHit (l : List Char) : Bool := hasSubstr ['$', '('] l

/-- Blocked pattern for the backtick character (code point 96). -/
def backtickHit (l : List Char) : Bool := hasSubstr [Char.ofNat 96] l

/-- Blocked pattern `\.\./`. -/
def dotDotSlashHit (l : List Char) : Bool := hasSubstr ['.', '.', '/'] l

/-- Blocked pattern `>`. -/
def gtHit (l : List Char) : Bool := hasSubstr ['>'] l

/-- Blocked pattern `<`. -/
def ltHit (l : List Char) : Bool := hasSubstr ['<'] l

/-- The loop over `SecurityManager.BLOCKED_PATTERNS`, in source order; each
regex is searched case-insensitively (`re.IGNORECASE`), modelled by running
the matcher on the lowercased command text. -/
def anyBlockedHit (cs : List Char) : Bool :=
  let l := lowerList cs
  rmWsHit l || sudoHit l || curlHit l || wgetHit l || pipWsHit l ||
  pythonHit l || andAndHit l || orOrHit l || pipeHit l || semiHit l ||
  dollarParenHit l || backtickHit l || dotDotSlashHit l || gtHit l || ltHit l

/-- The fourteen blocked patterns named by the specification's blocked-pattern
list (every entry of `BLOCKED_PATTERNS` except the bare-interpreter pattern
`python3?\s(?!.*pyguard)`). -/
def listedBlockedHit (cs : List Char) : Bool :=
  let l := lowerList cs
  rmWsHit l || sudoHit l || curlHit l || wgetHit l || pipWsHit l ||
  andAndHit l || orOrHit l || pipeHit l || semiHit l ||
  dollarParenHit l || backtickHit l || dotDotSlashHit l || gtHit l || ltHit l

/-- A single-quote character as a string (used inside error messages). -/
def sqS : String := (Char.ofNat 39).toString

/-- The denial message for a base command outside the allow-list. -/
def notAllowedMsg (base : List Char) : String :=
  "Command " ++ sqS ++ String.mk base ++ sqS ++ " not allowed. Use " ++ sqS ++
    "help" ++ sqS ++ " for available commands."

/-- The denial message for a blocked-pattern match. -/
def forbiddenMsg : String :=
  "Command contains forbidden pattern. Use " ++ sqS ++ "help" ++ sqS ++
    " for available commands."

/-- `SecurityManager.validate_command`: reject blank commands, then reject
when the first whitespace-delimited token is not in `ALLOWED_COMMANDS`
(case-sensitive membership), then reject when any blocked pattern matches
the full command text case-insensitively; otherwise accept. -/
def validateCommand (command : String) : Bool × String :=
  if pyStrip command.toList = [] then (false, "Empty command")
  else if ALLOWED_COMMANDS.contains (firstTok command.toList) = false then
    (false, notAllowedMsg (firstTok command.toList))
  else if anyBlockedHit command.toList then (false, forbiddenMsg)
  else (true, "")

/-- Lowercasing a command as a `String`, the model of `command.lower()`. -/
def lowerStr (s : String) : String :=
  String.mk (lowerList s.toList)

/-! ## Rate limiter (`backend/security.py`, `check_rate_limit`) -/

/-- `SecurityManager.max_commands`. -/
def maxCommands : Nat := 10

/-- `SecurityManager.time_window` (five minutes), in seconds. -/
def timeWindow : Int := 300

/-- The pruning step of `check_rate_limit`: keep only the timestamps `ts`
with `now - ts < time_window`. -/
def rlPruned (w : List Int) (now : Int) : List Int :=
  w.filter (fun ts => decide (now - ts < timeWindow))

/-- `SecurityManager.check_rate_limit` for one client: prune the stored
window, reject without recording when the pruned count reaches
`max_commands`, otherwise record `now` and admit.  Returns the verdict and
the client's new stored window. -/
def checkRateLimit (w : List Int) (now : Int) : Bool × List Int :=
  if maxCommands ≤ (rlPruned w now).length then (false, rlPruned w now)
  else (true, rlPruned w now ++ [now])

/-- The per-client map update performed by `check_rate_limit` on
`self.rate_limits` (a `defaultdict(list)`): only the entry of the calling
client changes. -/
def rateLimitsStep (rl : String → List Int) (cid : String) (now : Int) :
    Bool × (String → List Int) :=
  ((checkRateLimit (rl cid) now).1,
    fun c => if c = cid then (checkRateLimit (rl cid) now).2 else rl c)

/-- A sequence of `check_rate_limit` calls for one client at the given
times, threading the stored window; returns the verdicts and final window. -/
def runCalls : List Int → List Int → List Bool × List Int
  | w, [] => ([], w)
  | w, t :: ts =>
    let s := checkRateLimit w t
    let r := runCalls s.2 ts
    (s.1 :: r.1, r.2)

/-! ## Helper lemmas -/

theorem toNat_ofNat_valid (n : Nat) (h : n.isValidChar) :
    (Char.ofNat n).toNat = n := by
  rw [Char.ofNat, dif_pos h]
  simp [Char.ofNatAux, Char.toNat, UInt32.toNat, BitVec.toNat_ofNatLt]

theorem lowerChar_idem (c : Char) : lowerChar (lowerChar c) = lowerChar c := by
  unfold lowerChar
  split
  · next h =>
    have hv : (c.toNat + 32).isValidChar := by
      left
      change c.toNat + 32 < 55296
      omega
    rw [toNat_ofNat_valid _ hv]
    rw [if_neg (by omega)]
  · rfl

theorem lowerList_idem (cs : List Char) : lowerList (lowerList cs) = lowerList cs := by
  simp only [lowerList, List.map_map]
  exact List.map_congr_left fun c _ => lowerChar_idem c

theorem listedBlocked_implies_any (cs : List Char)
    (h : listedBlockedHit cs = true) : anyBlockedHit cs = true := by
  simp only [listedBlockedHit, Bool.or_eq_true] at h
  simp only [anyBlockedHit, Bool.or_eq_true]
  tauto

theorem rlPruned_of_within (w : List Int) (now : Int)
    (h : ∀ a ∈ w, now - a < timeWindow) : rlPruned w now = w :=
  List.filter_eq_self.mpr fun a ha => by simpa using h a ha

theorem checkRateLimit_admit (w : List Int) (now : Int)
    (h : ∀ a ∈ w, now - a < timeWindow) (hl : w.length < maxCommands) :
    checkRateLimit w now = (true, w ++ [now]) := by
  unfold checkRateLimit
  rw [rlPruned_of_within w now h, if_neg (by omega)]

theorem checkRateLimit_reject (w : List Int) (now : Int)
    (h : ∀ a ∈ w, now - a < timeWindow) (hl : maxCommands ≤ w.length) :
    checkRateLimit w now = (false, w) := by
  unfold checkRateLimit
  rw [rlPruned_of_within w now h, if_pos hl]

theorem runCalls_all_admitted (ts : List Int) :
    ∀ w : List Int,
      (∀ a ∈ w, ∀ b ∈ ts, b - a < timeWindow) →
      List.Pairwise (fun a b => b - a < timeWindow) ts →
      w.length + ts.length ≤ maxCommands →
      runCalls w ts = (List.replicate ts.length true, w ++ ts) := by
  induction ts with
  | nil => intro w _ _ _; simp [runCalls]
  | cons t ts ih =>
    intro w hw hp hl
    have hstep : checkRateLimit w t = (true, w ++ [t]) :=
      checkRateLimit_admit w t (fun a ha => hw a ha t (by simp))
        (by simp at hl; omega)
    have hrec := ih (w ++ [t])
      (by
        intro a ha b hb
        rcases List.mem_append.mp ha with ha' | ha'
        · exact hw a ha' b (List.mem_cons_of_mem _ hb)
        · have : a = t := by simpa using ha'
          subst this
          exact (List.pairwise_cons.mp hp).1 b hb)
      (List.pairwise_cons.mp hp).2
      (by simp at hl ⊢; omega)
    simp [runCalls, hstep, hrec, List.append_assoc, List.replicate_succ]

theorem runCalls_append (xs ys : List Int) :
    ∀ w : List Int,
      runCalls w (xs ++ ys) =
        ((runCalls w xs).1 ++ (runCalls (runCalls w xs).2 ys).1,
          (runCalls (runCalls w xs).2 ys).2) := by
  induction xs with
  | nil => intro w; simp [runCalls]
  | cons x xs ih => intro w; simp [runCalls, ih]

/-! ## Static Python validator (`bug-detector/pyguard_hook.py`)

`ast.parse` is an external library call; its outcome on the given source is
abstracted as a `ParseResult` parameter (`ok`, a `SyntaxError` with its
optional line/offset and message, or any other parsing exception).  The
pattern database loaded from `patterns_db.json` is likewise passed in as a
list of entries.  Everything else is translated from the source. -/

/-- One validation issue dictionary; keys that a given issue kind does not
set are modelled as `none`.  Python's `None` message is modelled as `""`. -/
structure Issue where
  itype : String
  line : Nat
  column : Option Nat := none
  message : String
  severity : String
  suggestion : Option String := none
  snippet : Option String := none
  patternId : Option String := none
deriving Repr, DecidableEq

/-- Outcome of `ast.parse(code)`: success, a `SyntaxError` (with `lineno`,
`offset`, `msg`), or any other exception. -/
inductive ParseResult where
  | ok : ParseResult
  | failed (lineno offset : Option Nat) (msg : String) : ParseResult
  | otherErr : ParseResult
deriving Repr, DecidableEq

/-- `get_code_snippet`: the stripped text of the 1-based error line, empty
when the line number is `None`/`0` or out of range. -/
def getSnippet (code : List Char) (ln : Option Nat) : List Char :=
  match ln with
  | none => []
  | some 0 => []
  | some n =>
    let ls := splitNl code
    if n ≤ ls.length then pyStrip (ls.getD (n - 1) []) else []

/-- `kwThenBoundary kw l`: the anchored regex `\s*kw\b` matches `l` — after
leading whitespace, `kw` occurs followed by a non-word character or the end
of the line. -/
def kwThenBoundary (kw : List Char) (l : List Char) : Bool :=
  startsWithL kw (l.dropWhile pyWsB) &&
    (match (l.dropWhile pyWsB).drop kw.length with
     | [] => true
     | c :: _ => !isWordChar c)

/-- `kwThenWsAfter kw l`: the anchored regex `\s*kw\s+` matches `l`. -/
def kwThenWsAfter (kw : List Char) (l : List Char) : Bool :=
  startsThenWs kw (l.dropWhile pyWsB)

/-- The model of `re.match(r'\s*(if|elif|while)\s+', line)`. -/
def ctrlWsStart (l : List Char) : Bool :=
  kwThenWsAfter "if".toList l || kwThenWsAfter "elif".toList l ||
    kwThenWsAfter "while".toList l

/-- The eleven control keywords of the missing-colon heuristic. -/
def KW11 : List (List Char) :=
  ["if", "elif", "else", "for", "while", "def", "class", "try", "except",
    "finally", "with"].map String.toList

/-- The model of
`re.match(r'\s*(if|elif|else|for|while|def|class|try|except|finally|with)\b', line)`. -/
def ctrl11Start (l : List Char) : Bool :=
  KW11.any (fun kw => kwThenBoundary kw l)

/-- The seven keywords of the colon suggestion inside `suggest_syntax_fix`. -/
def KW7 : List (List Char) :=
  ["if", "elif", "else", "for", "while", "def", "class"].map String.toList

/-- The model of `re.match(r'\s*(if|elif|else|for|while|def|class)\b', line)`. -/
def ctrl7Start (l : List Char) : Bool :=
  KW7.any (fun kw => kwThenBoundary kw l)

/-- Whether, after skipping whitespace, the next character is a word
character. -/
def wordAfterWs (cs : List Char) : Bool :=
  match cs.dropWhile pyWsB with
  | c :: _ => isWordChar c
  | [] => false

/-- Scan for `re.search(r'\w+\s*=\s*\w+', line)`: the regex matches exactly
when some `=` character has a word character before it and after it, in
both cases across optional whitespace; `revL` is the reversed text to the
left of the scan position. -/
def assignScan : List Char → List Char → Bool
  | _, [] => false
  | revL, c :: rest =>
    (c == '=' && wordAfterWs revL && wordAfterWs rest) || assignScan (c :: revL) rest

/-- The model of `re.search(r'\w+\s*=\s*\w+', line)`. -/
def assignHit (l : List Char) : Bool := assignScan [] l

/-- The model of `re.search(r'[!=<>]=', line)`. -/
def cmpOpHit : List Char → Bool
  | [] => false
  | [_] => false
  | a :: b :: rest =>
    ((a == '!' || a == '=' || a == '<' || a == '>') && b == '=') ||
      cmpOpHit (b :: rest)

/-- The model of `re.search(r':\s*(#.*)?$', line)` on a newline-free line:
some `:` is followed, across whitespace, by the end of the line or by a
`#` comment. -/
def hasColonEnd : List Char → Bool
  | [] => false
  | c :: rest =>
    (c == ':' &&
      (match rest.dropWhile pyWsB with
       | [] => true
       | d :: _ => d == '#')) || hasColonEnd rest

/-- One candidate position of `re.search(r'def\s+\w+\s*\(\s*\)', line)`. -/
def zeroParamDefAt (cs : List Char) : Bool :=
  startsWithL "def".toList cs &&
    (match cs.drop 3 with
     | c :: _ =>
       pyWsB c &&
         (match (cs.drop 3).dropWhile pyWsB with
          | d :: _ =>
            isWordChar d &&
              (match (((cs.drop 3).dropWhile pyWsB).dropWhile isWordChar).dropWhile pyWsB with
               | '(' :: r4 =>
                 (match r4.dropWhile pyWsB with
                  | ')' :: _ => true
                  | _ => false)
               | _ => false)
          | [] => false)
     | [] => false)

/-- The model of `re.search(r'def\s+\w+\s*\(\s*\)', line)`. -/
def zeroParamDefHit : List Char → Bool
  | [] => false
  | c :: cs => zeroParamDefAt (c :: cs) || zeroParamDefHit cs

/-- One candidate position of `re.search(r'fizzbuzz\s*\(\s*\d+\s*\)', code)`
(case-sensitive: this search carries no `IGNORECASE` flag). -/
def fizzCallAt (cs : List Char) : Bool :=
  startsWithL "fizzbuzz".toList cs &&
    (match (cs.drop 8).dropWhile pyWsB with
     | '(' :: r2 =>
       (match r2.dropWhile pyWsB with
        | d :: _ =>
          isDigitB d &&
            (match ((r2.dropWhile pyWsB).dropWhile isDigitB).dropWhile pyWsB with
             | ')' :: _ => true
             | _ => false)
        | [] => false)
     | _ => false)

/-- The model of `re.search(r'fizzbuzz\s*\(\s*\d+\s*\)', code)`. -/
def fizzCallHit : List Char → Bool
  | [] => false
  | c :: cs => fizzCallAt (c :: cs) || fizzCallHit cs

/-- `line.count(c) % 2 == 1`, the odd-quote test of `suggest_syntax_fix`. -/
def oddCount (c : Char) (l : List Char) : Bool :=
  (l.count c) % 2 == 1

/-- `suggest_syntax_fix(error, code)`. -/
def suggestFix (msg : String) (ln : Option Nat) (code : List Char) : String :=
  if hasSubstr "invalid syntax".toList (lowerList msg.toList) then
    match ln with
    | some n =>
      if n ≠ 0 then
        let ls := splitNl code
        let line := if n ≤ ls.length then ls.getD (n - 1) [] else []
        if hasSubstr ['='] line &&
            (hasSubstr "if".toList line || hasSubstr "elif".toList line ||
              hasSubstr "while".toList line) then
          "Use == for comparison instead of = (assignment)"
        else if ctrl7Start line && !hasSubstr [':'] line then
          "Add a colon (:) at the end of the line"
        else if oddCount '"' line || oddCount (Char.ofNat 39) line then
          "Close the string with matching quote"
        else "Check for missing colons, quotes, or parentheses"
      else "Check for missing colons, quotes, or parentheses"
    | none => "Check for missing colons, quotes, or parentheses"
  else if hasSubstr "unexpected indent".toList (lowerList msg.toList) then
    "Fix indentation - use consistent spaces or tabs"
  else if hasSubstr "unindent does not match".toList (lowerList msg.toList) then
    "Align indentation with previous block"
  else "Check syntax near this line"

/-- The single issue dictionary built by `check_syntax` on a parse
failure. -/
def mkSynIssue (ln off : Option Nat) (msg : String) (code : List Char) : Issue :=
  { itype := "SyntaxError", line := ln.getD 0, column := some (off.getD 0),
    message := msg, severity := "error",
    suggestion := some (suggestFix msg ln code),
    snippet := some (String.mk (getSnippet code ln)) }

/-- `check_syntax`: empty on parse success and on non-`SyntaxError`
exceptions, a single `SyntaxError` issue on parse failure. -/
def synCheck (pr : ParseResult) (code : List Char) : List Issue :=
  match pr with
  | .ok => []
  | .otherErr => []
  | .failed ln off msg => [mkSynIssue ln off msg code]

/-- The `ComparisonError` issue of `check_static_analysis`. -/
def mkCmpIssue (i : Nat) (line : List Char) : Issue :=
  { itype := "ComparisonError", line := i,
    message := "Possible assignment (=) instead of comparison (==) in conditional",
    severity := "error",
    suggestion := some "Change = to == for comparison",
    snippet := some (String.mk (pyStrip line)) }

/-- The `MissingColon` issue of `check_static_analysis`. -/
def mkColonIssue (i : Nat) (line : List Char) : Issue :=
  { itype := "MissingColon", line := i,
    message := "Missing colon (:) after control statement",
    severity := "error",
    suggestion := some "Add : at the end of this line",
    snippet := some (String.mk (pyStrip line)) }

/-- The `ArgumentMismatch` issue of `check_static_analysis`. -/
def mkArgIssue (i : Nat) (line : List Char) : Issue :=
  { itype := "ArgumentMismatch", line := i,
    message := "Function defined without parameters but called with arguments",
    severity := "error",
    suggestion := some "Add parameter to function definition",
    snippet := some (String.mk (pyStrip line)) }

/-- The issues contributed by one source line (1-based number `i`) in
`check_static_analysis`: blank lines and `#` comments are skipped, then the
comparison, missing-colon and argument-mismatch heuristics run in order.
The argument-mismatch heuristic fires only when the whole source contains
`fizzbuzz` case-insensitively, this line matches a zero-parameter `def`,
and the source contains a call `fizzbuzz(<digits>)`. -/
def lineIssues (code : List Char) (i : Nat) (line : List Char) : List Issue :=
  if pyStrip line = [] then []
  else if (match pyStrip line with | '#' :: _ => true | _ => false) then []
  else
    (if ctrlWsStart line && (assignHit line && !cmpOpHit line) then
      [mkCmpIssue i line] else [])
    ++ (if ctrl11Start line && !hasColonEnd line then [mkColonIssue i line] else [])
    ++ (if hasSubstr "fizzbuzz".toList (lowerList code) && zeroParamDefHit line &&
          fizzCallHit code then [mkArgIssue i line] else [])

/-- The enumeration loop of `check_static_analysis` over the lines, with
1-based line numbers starting at `i`. -/
def staticGo (code : List Char) (i : Nat) : List (List Char) → List Issue
  | [] => []
  | l :: ls => lineIssues code i l ++ staticGo code (i + 1) ls

/-- `check_static_analysis(code)`. -/
def staticIssues (code : String) : List Issue :=
  staticGo code.toList 1 (splitNl code.toList)

/-- One entry of the pattern database (`patterns_db.json`); absent JSON
keys are `none`, `buggy_code` defaults to the empty string. -/
structure BugPattern where
  pid : Option String
  errorType : Option String
  buggyCode : String
deriving Repr, DecidableEq

/-- `re.sub(r'\s+', '', s)`: remove all whitespace characters. -/
def cleanWs (l : List Char) : List Char :=
  l.filter (fun c => !pyWsB c)

/-- `calculate_similarity(code_lower, pattern_lower) > 0.6`: zero when
either whitespace-stripped text is empty, otherwise the character-position
overlap count `m` over `max` of the lengths `L`, exceeding the threshold;
the float comparison `m / L > 0.6` is modelled exactly as `3 * L < 5 * m`. -/
def simHit (codeLower : List Char) (p : BugPattern) : Bool :=
  let c1 := cleanWs codeLower
  let c2 := cleanWs (lowerList p.buggyCode.toList)
  if c1.isEmpty || c2.isEmpty then false
  else 3 * max c1.length c2.length < 5 * ((c1.zip c2).countP (fun q => q.1 == q.2))

/-- The `PatternMatch` issue of `check_pattern_matching`. -/
def mkPatIssue (p : BugPattern) : Issue :=
  { itype := "PatternMatch", line := 0,
    message := "Code structure similar to known bug: " ++ p.errorType.getD "unknown",
    severity := "warning",
    suggestion := some ("Review pattern " ++ p.pid.getD "?" ++ " for potential issues"),
    patternId := p.pid }

/-- The loop of `check_pattern_matching`: emit one `PatternMatch` issue for
the first sufficiently similar entry and stop. -/
def patternScan (codeLower : List Char) : List BugPattern → List Issue
  | [] => []
  | p :: ps => if simHit codeLower p then [mkPatIssue p] else patternScan codeLower ps

/-- `check_pattern_matching(code)` with the loaded database entries: only
the first five entries are considered (`patterns[:5]`). -/
def patMatchIssues (patterns : List BugPattern) (code : String) : List Issue :=
  patternScan (lowerList code.toList) (patterns.take 5)

/-- `validate_python_code`: tier 1 issues alone on parse failure; otherwise
tier 2 issues, with tier 3 appended only when no issue so far has severity
`error`. -/
def validatePythonCode (pr : ParseResult) (patterns : List BugPattern)
    (code : String) : List Issue :=
  match synCheck pr code.toList with
  | [] =>
    if (staticIssues code).any (fun i => i.severity == "error") then staticIssues code
    else staticIssues code ++ patMatchIssues patterns code
  | s => s

/-! ## Helper lemmas for the validator -/

theorem lineIssues_shape (code : List Char) (i : Nat) (line : List Char) :
    ∀ is ∈ lineIssues code i line,
      (is.itype = "ComparisonError" ∨ is.itype = "MissingColon" ∨
        is.itype = "ArgumentMismatch") ∧ is.severity = "error" := by
  intro is his
  unfold lineIssues at his
  split at his
  · exact absurd his (List.not_mem_nil is)
  · split at his
    · exact absurd his (List.not_mem_nil is)
    · rcases List.mem_append.mp his with h | h
      · rcases List.mem_append.mp h with h' | h'
        · split at h'
          · have : is = mkCmpIssue i line := by simpa using h'
            subst this
            exact ⟨Or.inl rfl, rfl⟩
          · exact absurd h' (List.not_mem_nil is)
        · split at h'
          · have : is = mkColonIssue i line := by simpa using h'
            subst this
            exact ⟨Or.inr (Or.inl rfl), rfl⟩
          · exact absurd h' (List.not_mem_nil is)
      · split at h
        · have : is = mkArgIssue i line := by simpa using h
          subst this
          exact ⟨Or.inr (Or.inr rfl), rfl⟩
        · exact absurd h (List.not_mem_nil is)

theorem staticGo_shape (code : List Char) (ls : List (List Char)) :
    ∀ (i : Nat), ∀ is ∈ staticGo code i ls,
      (is.itype = "ComparisonError" ∨ is.itype = "MissingColon" ∨
        is.itype = "ArgumentMismatch") ∧ is.severity = "error" := by
  induction ls with
  | nil => intro i is his; exact absurd his (List.not_mem_nil is)
  | cons l rest ih =>
    intro i is his
    rcases List.mem_append.mp his with h | h
    · exact lineIssues_shape code i l is h
    · exact ih (i + 1) is h

theorem staticIssues_shape (code : String) :
    ∀ is ∈ staticIssues code,
      (is.itype = "ComparisonError" ∨ is.itype = "MissingColon" ∨
        is.itype = "ArgumentMismatch") ∧ is.severity = "error" :=
  staticGo_shape code.toList (splitNl code.toList) 1

theorem patternScan_shape (cl : List Char) (ps : List BugPattern) :
    ∀ is ∈ patternScan cl ps, is.itype = "PatternMatch" ∧ is.severity = "warning" := by
  induction ps with
  | nil => intro is his; exact absurd his (List.not_mem_nil is)
  | cons p rest ih =>
    intro is his
    unfold patternScan at his
    split at his
    · have : is = mkPatIssue p := by simpa using his
      subst this
      exact ⟨rfl, rfl⟩
    · exact ih is his

theorem patternScan_eq_find (cl : List Char) (ps : List BugPattern) :
    patternScan cl ps = ((ps.find? (simHit cl)).map mkPatIssue).toList := by
  induction ps with
  | nil => rfl
  | cons p rest ih =>
    by_cases h : simHit cl p
    · simp [patternScan, List.find?_cons_of_pos _ h, h]
    · have hf : (p :: rest).find? (simHit cl) = rest.find? (simHit cl) :=
        List.find?_cons_of_neg _ (by simpa using h)
    
      simp [patternScan, hf, h, ih]

theorem staticGo_arg_mem (code : List Char) (ls : List (List Char)) :
    ∀ (i j : Nat) (line : List Char),
      ls[j]? = some line →
      pyStrip line ≠ [] →
      (match pyStrip line with | '#' :: _ => true | _ => false) = false →
      zeroParamDefHit line = true →
      hasSubstr "fizzbuzz".toList (lowerList code) = true →
      fizzCallHit code = true →
      mkArgIssue (i + j) line ∈ staticGo code i ls := by
  induction ls with
  | nil => intro i j line hj; simp at hj
  | cons l rest ih =>
    intro i j line hj hs hh hd hf hc
    cases j with
    | zero =>
      have hl : l = line := by simpa using hj
      subst hl
      refine List.mem_append.mpr (Or.inl ?_)
      unfold lineIssues
      rw [if_neg hs, if_neg (by simp [hh])]
      refine List.mem_append.mpr (Or.inr ?_)
      rw [if_pos (by rw [hf, hd, hc]; rfl)]
      simp
    | succ k =>
      have hmem : mkArgIssue (i + 1 + k) line ∈ staticGo code (i + 1) rest :=
        ih (i + 1) k line (by simpa using hj) hs hh hd hf hc
      refine List.mem_append.mpr (Or.inr ?_)
      have : i + 1 + k = i + (k + 1) := by omega
      rwa [this] at hmem

/-! ## Claim theorems: static validator -/

/-- C5: on a parse failure, `validate_python_code` returns exactly one
issue — a `SyntaxError` of severity `error` carrying the error line (0 when
absent), the message, the suggested fix, and the offending line stripped
text — and every issue in the result is a `SyntaxError`, so no
`ComparisonError`, `MissingColon`, `ArgumentMismatch` or `PatternMatch`
issue is produced, whatever heuristic triggers the text contains. -/
theorem c5_parse_failure_single_issue (ln off : Option Nat) (msg : String)
    (patterns : List BugPattern) (code : String) :
    validatePythonCode (ParseResult.failed ln off msg) patterns code =
      [{ itype := "SyntaxError", line := ln.getD 0, column := some (off.getD 0),
         message := msg, severity := "error",
         suggestion := some (suggestFix msg ln code.toList),
         snippet := some (String.mk (getSnippet code.toList ln)) }] ∧
    ∀ is ∈ validatePythonCode (ParseResult.failed ln off msg) patterns code,
      is.itype = "SyntaxError" ∧ is.severity = "error" := by
  constructor
  · rfl
  · intro is his
    have : is = mkSynIssue ln off msg code.toList := by
      simpa [validatePythonCode, synCheck] using his
    subst this
    exact ⟨rfl, rfl⟩

/-- C6 counterexample: the argument-mismatch heuristic is not generic in
the function name.  The source `def foo(): ... foo(5)` defines a
zero-parameter function `foo` (recognised by the zero-parameter-def
detector) and later calls it with an argument, yet `validate_python_code`
emits no issue at all, in particular no `ArgumentMismatch`. -/
theorem c6_arg_mismatch_counterexample :
    zeroParamDefHit "def foo():".toList = true ∧
      validatePythonCode ParseResult.ok [] "def foo():\n    pass\nfoo(5)" = [] := by
  exact ⟨by decide, by decide⟩

/-- C6 amended: the heuristic is hard-wired to the name `fizzbuzz`.  For
every source text containing `fizzbuzz` case-insensitively and a
case-sensitive call `fizzbuzz(<digits>)`, each non-blank non-comment line
matching a zero-parameter function definition (of any name) contributes an
`ArgumentMismatch` issue of severity `error` at its 1-based line number. -/
theorem c6_arg_mismatch_fizzbuzz_only (code : String) (i : Nat) (line : List Char)
    (hline : (splitNl code.toList)[i]? = some line)
    (hs : pyStrip line ≠ [])
    (hh : (match pyStrip line with | '#' :: _ => true | _ => false) = false)
    (hd : zeroParamDefHit line = true)
    (hf : hasSubstr "fizzbuzz".toList (lowerList code.toList) = true)
    (hc : fizzCallHit code.toList = true) :
    mkArgIssue (i + 1) line ∈ staticIssues code := by
  have := staticGo_arg_mem code.toList (splitNl code.toList) 1 i line hline hs hh hd hf hc
  have heq : 1 + i = i + 1 := by omega
  rwa [heq] at this

/-- C6 amended witness: the fizzbuzz program itself does get the issue. -/
theorem c6_arg_mismatch_fizzbuzz_only_witness :
    (splitNl "def fizzbuzz():\n    pass\nfizzbuzz(5)".toList)[0]? =
        some "def fizzbuzz():".toList ∧
      mkArgIssue 1 "def fizzbuzz():".toList ∈
        staticIssues "def fizzbuzz():\n    pass\nfizzbuzz(5)" :=
  ⟨by decide,
    c6_arg_mismatch_fizzbuzz_only "def fizzbuzz():\n    pass\nfizzbuzz(5)" 0
      ("def fizzbuzz():".toList) (by decide) (by decide) (by decide) (by decide)
      (by decide) (by decide)⟩

theorem synCheck_shape (pr : ParseResult) (code : List Char) :
    synCheck pr code = [] ∨
      ∃ ln off msg, synCheck pr code = [mkSynIssue ln off msg code] := by
  cases pr with
  | ok => exact Or.inl rfl
  | otherErr => exact Or.inl rfl
  | failed ln off msg => exact Or.inr ⟨ln, off, msg, rfl⟩

theorem validate_branches (pr : ParseResult) (ps : List BugPattern) (code : String) :
    (∃ ln off msg,
        validatePythonCode pr ps code = [mkSynIssue ln off msg code.toList])
    ∨ (validatePythonCode pr ps code = staticIssues code ∧
        (staticIssues code).any (fun is => is.severity == "error") = true)
    ∨ ((validatePythonCode pr ps code = staticIssues code ++ patMatchIssues ps code)
        ∧ (staticIssues code).any (fun is => is.severity == "error") = false) := by
  rcases synCheck_shape pr code.toList with h | ⟨ln, off, msg, h⟩
  · rcases Bool.eq_false_or_eq_true
        ((staticIssues code).any (fun is => is.severity == "error")) with hany | hany
    · refine Or.inr (Or.inl ⟨?_, hany⟩)
      unfold validatePythonCode
      rw [h]
      simp [hany]
    · refine Or.inr (Or.inr ⟨?_, hany⟩)
      unfold validatePythonCode
      rw [h]
      simp [hany]
  · refine Or.inl ⟨ln, off, msg, ?_⟩
    unfold validatePythonCode
    rw [h]

/-- C7: the pattern-similarity tier considers at most the first five
database entries; it returns the issue of the first entry whose similarity
exceeds the threshold and nothing else (so it emits at most one issue, a
`PatternMatch` of severity `warning` referencing that entry via
`mkPatIssue`); inside `validate_python_code`, whenever the result contains
any issue of severity `error` it contains no `PatternMatch` issue, and the
result never contains more than one `PatternMatch` issue. -/
theorem c7_pattern_tier :
    (∀ (ps : List BugPattern) (code : String),
        patMatchIssues ps code = patMatchIssues (ps.take 5) code)
    ∧ (∀ (cl : List Char) (ps : List BugPattern),
        patternScan cl ps = ((ps.find? (simHit cl)).map mkPatIssue).toList)
    ∧ (∀ (pr : ParseResult) (ps : List BugPattern) (code : String),
        (validatePythonCode pr ps code).any (fun is => is.severity == "error") = true →
        (validatePythonCode pr ps code).any (fun is => is.itype == "PatternMatch") = false)
    ∧ (∀ (pr : ParseResult) (ps : List BugPattern) (code : String),
        (validatePythonCode pr ps code).countP (fun is => is.itype == "PatternMatch") ≤ 1) := by
  refine ⟨?_, ?_, ?_, ?_⟩
  · intro ps code
    unfold patMatchIssues
    rw [List.take_take]
    norm_num
  · exact patternScan_eq_find
  · intro pr ps code herr
    rcases validate_branches pr ps code with ⟨ln, off, msg, hv⟩ | ⟨hv, _⟩ | ⟨hv, hany⟩
    · rw [hv]
      simp [mkSynIssue]
    · rw [hv]
      refine List.any_eq_false.mpr ?_
      intro is his
      have := (staticIssues_shape code is his).1
      simp only [beq_iff_eq]
      rcases this with h | h | h <;> simp [h]
    · rw [hv] at herr
      exfalso
      rw [List.any_eq_true] at herr
      obtain ⟨is, his, hsev⟩ := herr
      rcases List.mem_append.mp his with h | h
      · rw [List.any_eq_false] at hany
        exact hany is h hsev
      · have := (patternScan_shape _ _ is h).2
        simp [this] at hsev
  · intro pr ps code
    have hzero : (staticIssues code).countP (fun is => is.itype == "PatternMatch") = 0 := by
      refine List.countP_eq_zero.mpr ?_
      intro is his
      have := (staticIssues_shape code is his).1
      simp only [beq_iff_eq]
      rcases this with h | h | h <;> simp [h]
    rcases validate_branches pr ps code with ⟨ln, off, msg, hv⟩ | ⟨hv, _⟩ | ⟨hv, _⟩
    · rw [hv]
      simp [mkSynIssue]
    · rw [hv, hzero]
      omega
    · rw [hv, List.countP_append, hzero]
      have hle : (patMatchIssues ps code).countP (fun is => is.itype == "PatternMatch") ≤
          (patMatchIssues ps code).length := List.countP_le_length _
      have hlen : (patMatchIssues ps code).length ≤ 1 := by
        unfold patMatchIssues
        rw [patternScan_eq_find]
        cases (ps.take 5).find? (simHit (lowerList code.toList)) <;> simp
      omega

/-- C7 witness: a source whose heuristic tier reports an error (`if x = 1:`
is flagged as a `ComparisonError`) gets no `PatternMatch` issue. -/
theorem c7_pattern_tier_witness :
    (validatePythonCode ParseResult.ok [] "if x = 1:").any
        (fun is => is.severity == "error") = true ∧
      (validatePythonCode ParseResult.ok [] "if x = 1:").any
        (fun is => is.itype == "PatternMatch") = false :=
  ⟨by decide, c7_pattern_tier.2.2.1 ParseResult.ok [] "if x = 1:" (by decide)⟩

/-! ## Output streaming (`backend/terminal_manager.py`, `backend/server.py`)

For a spawned command, `execute_command` runs its streaming phase as
`async for line in asyncio.wait_for(self._stream_process_output(process),
timeout=self.timeout)`.  `asyncio.wait_for` is a coroutine function, so
this applies `async for` to a coroutine object, which has no `__aiter__`:
CPython raises `TypeError` at that statement, before any `readline` runs
and before the async generator is consumed.  The inner handler catches
only `asyncio.TimeoutError`, so the `TypeError` reaches the generic
`except Exception as e` of `execute_command`, which yields a single
error-styled line; the generator then ends normally and the session loop
in `server.py` sends one `stdout` event for that line followed by one
`complete` event.  The streaming phase is therefore modelled as an
iteration that yields nothing and aborts with the `TypeError` text
(carried as a parameter, since the exact exception message varies by
CPython version).

The body of the never-iterated generator `_stream_process_output` is
embedded separately (`streamStdout`, stdout branch, stderr producing no
data, cooperative schedule idealised) in order to state what the intended
streaming would have delivered: decoded lines are right-stripped and
yielded only when nonempty, and a decode failure escapes the loop because
the inner `except` clauses catch only `asyncio.TimeoutError`.  A raw line
either decodes (`decodable`) to its decoded text or raises a
`UnicodeDecodeError` (`undecodable`, carrying the exception text). -/

/-- One raw line read from the child's stdout pipe. -/
inductive RawLine where
  | decodable (s : String) : RawLine
  | undecodable (msg : String) : RawLine
deriving Repr, DecidableEq

/-- One event sent to the client over the websocket for one command. -/
inductive Event where
  | stdout (line : String) : Event
  | complete : Event
deriving Repr, DecidableEq

/-- The error-styled line yielded by `execute_command`'s generic exception
handler (`❌ Error: {str(e)}` inside a red span). -/
def errSpan (msg : String) : String :=
  "<span class=\"text-red-400\">❌ Error: " ++ msg ++ "</span>"

/-- The stdout branch of `_stream_process_output` over the raw line list:
returns the yielded lines and, when a line failed to decode, the escaped
exception text. -/
def streamStdout : List RawLine → List String × Option String
  | [] => ([], none)
  | RawLine.decodable s :: rest =>
    let r := streamStdout rest
    if String.mk (pyRstrip s.toList) = "" then r
    else (String.mk (pyRstrip s.toList) :: r.1, r.2)
  | RawLine.undecodable m :: _ => ([], some m)

/-- Outcome of the streaming phase of `execute_command`: the lines it
yielded before the phase ended, and the text of the exception that ended
it, when one did. -/
structure StreamPhase where
  yielded : List String
  exn : Option String
deriving Repr, DecidableEq

/-- The streaming phase at `terminal_manager.py:83-87`: `async for` applied
to `asyncio.wait_for(<async generator>, timeout)`.  The `wait_for` call
returns a coroutine object without `__aiter__`, so the statement raises
`TypeError` (text `tyErr`) before consuming any element: no line is
yielded and the raw stdout content is never read. -/
def awaitForIteration (_raw : List RawLine) (tyErr : String) : StreamPhase :=
  { yielded := [], exn := some tyErr }

/-- The lines yielded by `execute_command` for a spawned process with the
given stdout content: the lines the streaming phase yielded, plus the
generic handler's error-styled line when the phase ended with an exception
(the `TypeError` is neither `asyncio.TimeoutError` nor
`FileNotFoundError`, so it lands in `except Exception as e` at
`terminal_manager.py:105-106`). -/
def executeLines (raw : List RawLine) (tyErr : String) : List String :=
  match awaitForIteration raw tyErr with
  | ⟨out, none⟩ => out
  | ⟨out, some m⟩ => out ++ [errSpan m]

/-- The event sequence the session loop of `server.py` delivers for one
such command: one `stdout` event per yielded line, then one `complete`
event. -/
def serverEvents (raw : List RawLine) (tyErr : String) : List Event :=
  (executeLines raw tyErr).map Event.stdout ++ [Event.complete]

/-! ## Claim theorems: admission gate and rate limiter -/

/-- C1: every command string matching one of the blocked patterns named by
the specification (`rm\s`, `sudo`, `curl`, `wget`, `pip\s`, `&&`, `||`,
`|`, `;`, `$(`, backtick, `../`, `>`, `<`) is denied by
`SecurityManager.validate_command`, even when its first
whitespace-delimited token is on the allow-list. -/
theorem c1_blocked_pattern_denied (cmd : String)
    (h : listedBlockedHit cmd.toList = true) :
    (validateCommand cmd).1 = false := by
  unfold validateCommand
  split
  · rfl
  · split
    · rfl
    · split
      · rfl
      · next hb => exact absurd (listedBlocked_implies_any _ h) hb

/-- C1 witness: `echo hi; ls` contains a blocked pattern (`;`) and is denied
although its base token `echo` is allow-listed. -/
theorem c1_blocked_pattern_denied_witness :
    listedBlockedHit "echo hi; ls".toList = true ∧
      (validateCommand "echo hi; ls").1 = false :=
  ⟨by decide, c1_blocked_pattern_denied "echo hi; ls" (by decide)⟩

/-- C2: every command string with nonempty trimmed text whose first
whitespace-delimited token is not a member of `ALLOWED_COMMANDS` is denied
by `SecurityManager.validate_command`, regardless of the rest of the
string. -/
theorem c2_unlisted_base_denied (cmd : String)
    (h1 : pyStrip cmd.toList ≠ [])
    (h2 : ALLOWED_COMMANDS.contains (firstTok cmd.toList) = false) :
    (validateCommand cmd).1 = false := by
  unfold validateCommand
  rw [if_neg h1, if_pos h2]

/-- C2 witness: `rmdir /tmp/x` has base token `rmdir`, which is not
allow-listed, and is denied. -/
theorem c2_unlisted_base_denied_witness :
    pyStrip "rmdir /tmp/x".toList ≠ [] ∧
      ALLOWED_COMMANDS.contains (firstTok "rmdir /tmp/x".toList) = false ∧
      (validateCommand "rmdir /tmp/x").1 = false :=
  ⟨by decide, by decide, c2_unlisted_base_denied "rmdir /tmp/x" (by decide) (by decide)⟩

/-- C3 counterexample: `validate_command` is not case-insensitive.  The
command `LS` and its lowercased variant `ls` receive different verdicts,
because allow-list membership of the base token is checked
case-sensitively. -/
theorem c3_case_counterexample :
    (validateCommand (lowerStr "LS")).1 = true ∧ (validateCommand "LS").1 = false := by
  constructor
  · decide
  · decide

/-- C3 amended: only the blocked-pattern stage of the admission check is
case-insensitive — the pattern scan gives the same result on a command and
on its lowercased variant (the allow-list check on the base token is
case-sensitive, so the overall verdict is not case-invariant). -/
theorem c3_pattern_scan_case_insensitive (cmd : String) :
    anyBlockedHit (lowerStr cmd).toList = anyBlockedHit cmd.toList := by
  show anyBlockedHit (lowerList cmd.toList) = anyBlockedHit cmd.toList
  unfold anyBlockedHit
  rw [lowerList_idem]

/-- C4: `check_rate_limit` prunes entries outside the five-minute window,
rejects without recording exactly when the pruned count has reached
`max_commands = 10`, records the current time otherwise; consequently, for
eleven calls at nondecreasing times spanning less than the window, the
first ten are admitted and the eleventh is rejected. -/
theorem c4_rate_limit :
    (∀ (w : List Int) (now : Int),
        (checkRateLimit w now).1 = false ↔ maxCommands ≤ (rlPruned w now).length)
    ∧ (∀ (w : List Int) (now : Int), maxCommands ≤ (rlPruned w now).length →
        checkRateLimit w now = (false, rlPruned w now))
    ∧ (∀ (w : List Int) (now : Int), (rlPruned w now).length < maxCommands →
        checkRateLimit w now = (true, rlPruned w now ++ [now]))
    ∧ (∀ t0 t1 t2 t3 t4 t5 t6 t7 t8 t9 t10 : Int,
        t0 ≤ t1 → t1 ≤ t2 → t2 ≤ t3 → t3 ≤ t4 → t4 ≤ t5 → t5 ≤ t6 →
        t6 ≤ t7 → t7 ≤ t8 → t8 ≤ t9 → t9 ≤ t10 → t10 - t0 < timeWindow →
        (runCalls [] [t0, t1, t2, t3, t4, t5, t6, t7, t8, t9, t10]).1 =
          [true, true, true, true, true, true, true, true, true, true, false]) := by
  refine ⟨?_, ?_, ?_, ?_⟩
  · intro w now
    unfold checkRateLimit
    split
    · next hc => simpa using hc
    · next hc => simpa using hc
  · intro w now hc
    unfold checkRateLimit
    rw [if_pos hc]
  · intro w now hc
    unfold checkRateLimit
    rw [if_neg (by omega)]
  · intro t0 t1 t2 t3 t4 t5 t6 t7 t8 t9 t10 h01 h12 h23 h34 h45 h56 h67 h78 h89 h910 hW
    have hfirst :
        runCalls [] [t0, t1, t2, t3, t4, t5, t6, t7, t8, t9] =
          (List.replicate 10 true, [t0, t1, t2, t3, t4, t5, t6, t7, t8, t9]) := by
      have := runCalls_all_admitted [t0, t1, t2, t3, t4, t5, t6, t7, t8, t9] []
        (by simp)
        (by
          simp [List.pairwise_cons]
          omega)
        (by simp [maxCommands])
      simpa using this
    have hsplit :
        ([t0, t1, t2, t3, t4, t5, t6, t7, t8, t9, t10] : List Int) =
          [t0, t1, t2, t3, t4, t5, t6, t7, t8, t9] ++ [t10] := rfl
    rw [hsplit, runCalls_append, hfirst]
    have hlast :
        checkRateLimit [t0, t1, t2, t3, t4, t5, t6, t7, t8, t9] t10 =
          (false, [t0, t1, t2, t3, t4, t5, t6, t7, t8, t9]) := by
      apply checkRateLimit_reject
      · intro a ha
        simp only [List.mem_cons, List.not_mem_nil, or_false] at ha
        omega
      · simp [maxCommands]
    simp [runCalls, hlast]

/-- C4 witness: eleven calls at times 0..10 from an empty window — ten
admissions then a rejection; a full window rejects without recording; an
empty window admits and records. -/
theorem c4_rate_limit_witness :
    ((0:Int) ≤ 1) ∧ ((10:Int) - 0 < timeWindow) ∧
      (runCalls [] [0, 1, 2, 3, 4, 5, 6, 7, 8, 9, 10]).1 =
        [true, true, true, true, true, true, true, true, true, true, false] ∧
      maxCommands ≤ (rlPruned (List.replicate 10 (0:Int)) 0).length ∧
      checkRateLimit (List.replicate 10 (0:Int)) 0 =
        (false, rlPruned (List.replicate 10 (0:Int)) 0) ∧
      (rlPruned ([] : List Int) 0).length < maxCommands ∧
      checkRateLimit ([] : List Int) 0 = (true, rlPruned ([] : List Int) 0 ++ [0]) :=
  ⟨by decide, by decide,
    c4_rate_limit.2.2.2 0 1 2 3 4 5 6 7 8 9 10 (by decide) (by decide) (by decide)
      (by decide) (by decide) (by decide) (by decide) (by decide) (by decide)
      (by decide) (by decide),
    by decide,
    c4_rate_limit.2.1 (List.replicate 10 (0:Int)) 0 (by decide),
    by decide,
    c4_rate_limit.2.2.1 ([] : List Int) 0 (by decide)⟩

/-- C10: starting from a stored window of at most `max_commands` entries,
after a `check_rate_limit` call the client's stored window has at most
`max_commands` entries, every stored timestamp lies within the time window
of the call's current time, and a rejected call never lengthens the
window. -/
theorem c10_rate_window_invariant (w : List Int) (now : Int)
    (h : w.length ≤ maxCommands) :
    ((checkRateLimit w now).2.length ≤ maxCommands)
    ∧ (∀ t ∈ (checkRateLimit w now).2, now - t < timeWindow)
    ∧ ((checkRateLimit w now).1 = false →
        (checkRateLimit w now).2.length ≤ w.length) := by
  have hlen : (rlPruned w now).length ≤ w.length :=
    List.length_filter_le _ _
  have hmem : ∀ t ∈ rlPruned w now, now - t < timeWindow := by
    intro t ht
    simpa using (List.mem_filter.mp ht).2
  unfold checkRateLimit
  split
  · next hc =>
    refine ⟨by simpa using le_trans hlen h, hmem, fun _ => by simpa using hlen⟩
  · next hc =>
    refine ⟨?_, ?_, ?_⟩
    · simp only []
      rw [List.length_append]
      simp only [List.length_singleton]
      omega
    · intro t ht
      rcases List.mem_append.mp ht with ht' | ht'
      · exact hmem t ht'
      · have : t = now := by simpa using ht'
        subst this
        simp [timeWindow]
    · intro hfalse
      simp at hfalse

/-- C10 witness: instance at the empty window and time 0. -/
theorem c10_rate_window_invariant_witness :
    (([] : List Int).length ≤ maxCommands) ∧
      (((checkRateLimit [] 0).2.length ≤ maxCommands)
        ∧ (∀ t ∈ (checkRateLimit ([] : List Int) 0).2, (0:Int) - t < timeWindow)
        ∧ ((checkRateLimit ([] : List Int) 0).1 = false →
            (checkRateLimit ([] : List Int) 0).2.length ≤ ([] : List Int).length)) :=
  ⟨by decide, c10_rate_window_invariant [] 0 (by decide)⟩

example : (validateCommand "ls").1 = true := by decide
example : (validateCommand "LS").1 = false := by decide
example : (validateCommand "echo hi; ls").1 = false := by decide
example : (validateCommand "python3 x.py").1 = false := by decide
example : (validateCommand "python3 cli.py pyguard").1 = true := by decide
example : (validateCommand "   ").1 = false := by decide
example : (validateCommand "cat ../secret").1 = false := by decide

example : staticIssues "if x = 1:" = [mkCmpIssue 1 "if x = 1:".toList] := by decide
example : staticIssues "if x == 1" = [mkColonIssue 1 "if x == 1".toList] := by decide
example : validatePythonCode .ok [] "def foo():\n    pass\nfoo(5)" = [] := by decide
example : staticIssues "def fizzbuzz():\n    pass\nfizzbuzz(5)" =
    [mkArgIssue 1 "def fizzbuzz():".toList] := by decide
example : patMatchIssues [⟨some "p1", some "TypeError", "def f(): pass"⟩]
    "def f(): pass" = [mkPatIssue ⟨some "p1", some "TypeError", "def f(): pass"⟩] := by decide
example : patMatchIssues [⟨some "p1", some "TypeError", "zzzzz"⟩] "def f(): pass" = [] := by decide
example : validatePythonCode (.failed (some 1) (some 3) "invalid syntax") [] "if x = 1:" =
    [mkSynIssue (some 1) (some 3) "invalid syntax" "if x = 1:".toList] := by decide

/-! ## Claim theorems: output streaming -/

/-- C8 (code bug): for an accepted command whose child exits 0 after
writing the stdout line `hello`, the delivered events are a single
`stdout` event carrying the generic handler's error-styled `TypeError`
line followed by `complete` — not the claimed `stdout hello` then
`complete`.  No case variant of the exception text can make the claimed
line appear.  The second conjunct evaluates the never-iterated generator
body at the same input: the intended streaming would have yielded exactly
`hello` with no exception, which is what the claim (and the spec's
round-trip property) describes. -/
theorem c8_roundtrip_code_bug (tyErr : String) :
    serverEvents [RawLine.decodable "hello\n"] tyErr =
      [Event.stdout (errSpan tyErr), Event.complete] ∧
    streamStdout [RawLine.decodable "hello\n"] = (["hello"], none) ∧
    ∀ m : String, Event.stdout "hello" ∉ serverEvents [RawLine.decodable "hello\n"] m := by
  refine ⟨rfl, by decide, ?_⟩
  intro m hmem
  simp only [serverEvents, executeLines, awaitForIteration, List.nil_append,
    List.map_cons, List.map_nil, List.cons_append, List.nil_append,
    List.mem_cons, List.not_mem_nil, or_false, Event.stdout.injEq] at hmem
  rcases hmem with h | h
  · have hlen := congrArg String.length h
    rw [errSpan, String.length_append, String.length_append] at hlen
    have h1 : ("hello" : String).length = 5 := rfl
    have h2 : ("<span class=\"text-red-400\">❌ Error: " : String).length = 36 := rfl
    have h3 : ("</span>" : String).length = 7 := rfl
    omega
  · exact absurd h (by simp)

/-- C9 (code bug): for an accepted command whose stdout contains a line
that fails to decode (between two decodable lines `a` and `b`), the
delivered events are the generic handler's `TypeError` line followed by
`complete`: decoding never runs, nothing is "silently dropped", and the
surrounding lines are never streamed.  The second conjunct evaluates the
never-iterated generator body at the same input: even the intended loop
would not implement the claim — it yields `a` and then aborts with the
decode exception (its inner handlers catch only `asyncio.TimeoutError`),
rather than dropping the malformed line and continuing with `b`. -/
theorem c9_decode_failure_code_bug (tyErr : String) :
    serverEvents [RawLine.decodable "a\n", RawLine.undecodable "boom",
        RawLine.decodable "b\n"] tyErr =
      [Event.stdout (errSpan tyErr), Event.complete] ∧
    streamStdout [RawLine.decodable "a\n", RawLine.undecodable "boom",
        RawLine.decodable "b\n"] = (["a"], some "boom") ∧
    ∀ m : String, Event.stdout "a" ∉ serverEvents [RawLine.decodable "a\n",
        RawLine.undecodable "boom", RawLine.decodable "b\n"] m := by
  refine ⟨rfl, by decide, ?_⟩
  intro m hmem
  simp only [serverEvents, executeLines, awaitForIteration, List.nil_append,
    List.map_cons, List.map_nil, List.cons_append, List.nil_append,
    List.mem_cons, List.not_mem_nil, or_false, Event.stdout.injEq] at hmem
  rcases hmem with h | h
  · have hlen := congrArg String.length h
    rw [errSpan, String.length_append, String.length_append] at hlen
    have h1 : ("a" : String).length = 1 := rfl
    have h2 : ("<span class=\"text-red-400\">❌ Error: " : String).length = 36 := rfl
    have h3 : ("</span>" : String).length = 7 := rfl
    omega
  · exact absurd h (by simp)
